import Mathlib

/-!
Verification of the sfizz jack client and core buffer/envelope components
against their natural-language specification.

The C++ sources are shallowly embedded:
* `sfz.AudioBuffer` models `src/sfizz/AudioBuffer.h` (channels as lists of
  samples, allocation failures as an explicit oracle).
* `jack` models the JACK/ALSA client `clients/jack_client.cpp` (MIDI
  dispatch, the audio process callback, the oversampling-flag parsing and
  the `stringTokenize` console helper).
* `mux` is a small interleaving model of the `SpinMutex` discipline between
  the process callback and the parameter-change handlers.
* `flex` models the flex envelope generator from the specification, since
  only the interface header `FlexEnvelope.h` is part of the sources.
-/

namespace sfz

/-- A single channel buffer, as managed by `Buffer<Type, Alignment>`.
Modelled from the spec: `Buffer.h` is not under the provided sources; per the
spec, resizing a channel may fail on allocation exhaustion, reported as a
boolean, and a failed resize leaves that channel in its previous valid state.
Contents preserved on resize are the prefix; new cells are zero. The sample
type is modelled as `Int`. -/
def bufferResize (b : List Int) (allocOK : Bool) (newSize : Nat) :
    Bool × List Int :=
  if allocOK then
    (true, b.take newSize ++ List.replicate (newSize - b.length) 0)
  else
    (false, b)

/-- `AudioBuffer<Type, MaxChannels, Alignment>`: a collection of per-channel
buffers.  The C++ stores a `std::array` of `MaxChannels` owning pointers, of
which the first `numChannels` are allocated; we model exactly those allocated
channels as a list.  `numFrames` is the separately tracked member field. -/
structure AudioBuffer where
  maxChannels : Nat
  buffers : List (List Int)
  numFrames : Nat
  deriving DecidableEq, Repr

namespace AudioBuffer

/-- `AudioBuffer(numChannels, numFrames)`: allocates `numChannels` buffers of
length `numFrames` each and records both counts. -/
def create (maxCh numCh numFr : Nat) : AudioBuffer :=
  { maxChannels := maxCh
    buffers := List.replicate numCh (List.replicate numFr 0)
    numFrames := numFr }

/-- `getNumChannels()` returns the `numChannels` member, which counts the
allocated channels. -/
def getNumChannels (ab : AudioBuffer) : Nat :=
  ab.buffers.length

/-- `getNumFrames()` returns the `numFrames` member. -/
def getNumFrames (ab : AudioBuffer) : Nat :=
  ab.numFrames

/-- `resize(newSize)`: iterates over the allocated channels, resizing each
one and and-ing the per-channel results into `returnedOK` (the C++ `&=` does
not short-circuit, so every channel is attempted even after a failure).  The
`numFrames` member is not touched by the source.  `alloc i` is the
allocation oracle for channel `i`. -/
def resize (ab : AudioBuffer) (alloc : Nat → Bool) (newSize : Nat) :
    Bool × AudioBuffer :=
  let results := (List.range ab.buffers.length).map
    (fun i => bufferResize (ab.buffers.getD i []) (alloc i) newSize)
  (results.all (fun r => r.1),
   { ab with buffers := results.map (fun r => r.2) })

/-- `getSpan(channelIndex)`: in-range access returns the channel's data and
size; out-of-range access (only `ASSERT`ed in debug builds) returns the empty
span `{}`. A span is modelled by the list of samples it covers. -/
def getSpan (ab : AudioBuffer) (channelIndex : Nat) : List Int :=
  if channelIndex < ab.buffers.length then ab.buffers.getD channelIndex []
  else []

/-- `channelWriter(channelIndex)`: in-range access returns the channel's data
pointer, out-of-range returns the value-initialized (null) iterator `{}`,
modelled as `none`. -/
def channelWriter (ab : AudioBuffer) (channelIndex : Nat) :
    Option (List Int) :=
  if channelIndex < ab.buffers.length then some (ab.buffers.getD channelIndex [])
  else none

/-- `addChannel()`: if below `MaxChannels` capacity, allocates one more
channel of length `numFrames`; otherwise does nothing. -/
def addChannel (ab : AudioBuffer) : AudioBuffer :=
  if ab.buffers.length < ab.maxChannels then
    { ab with buffers := ab.buffers ++ [List.replicate ab.numFrames 0] }
  else ab

end AudioBuffer

end sfz

namespace jack

/-- `midi::status` from MidiHelpers.h (the helper header is not among the
provided sources): the high nibble of the (8-bit) status byte, which selects
the switch case of the dispatch loops. -/
def midiStatus (b : Nat) : Nat :=
  b % 256 / 16 * 16

/-- `midi::buildAndCenterPitch` from MidiHelpers.h (not among the provided
sources): combines the two 7-bit pitch-bend data bytes and centers the
result around zero. -/
def buildAndCenterPitch (lsb msb : Nat) : Int :=
  (lsb % 128 : Int) + (msb % 128 : Int) * 128 - 8192

/-- A call made on the `sfz::Sfizz` synth object by the dispatch loops. -/
inductive SynthCall where
  | noteOn (time note velocity : Nat)
  | noteOff (time note velocity : Nat)
  | polyAftertouch (time note pressure : Nat)
  | cc (time number value : Nat)
  | channelAftertouch (time pressure : Nat)
  | pitchWheel (time pitch : Int)
  deriving DecidableEq, Repr

/-- One iteration of the JACK MIDI dispatching loop of `process`: the switch
on `midi::status(event.buffer[0])`.  An event of size 0 is skipped.  A
note-on whose velocity byte is zero jumps (`goto noteoff`) to the note-off
case with the same event bytes.  `programChange` and `systemMessage` are not
implemented and dispatch nothing. -/
def dispatchJack (time : Nat) (bytes : List Nat) : List SynthCall :=
  match bytes with
  | [] => []
  | b0 :: _ =>
    let d1 := bytes.getD 1 0
    let d2 := bytes.getD 2 0
    let s := midiStatus b0
    if s = 0x80 then [.noteOff time d1 d2]
    else if s = 0x90 then
      if d2 = 0 then [.noteOff time d1 d2] else [.noteOn time d1 d2]
    else if s = 0xA0 then [.polyAftertouch time d1 d2]
    else if s = 0xB0 then [.cc time d1 d2]
    else if s = 0xC0 then []
    else if s = 0xD0 then [.channelAftertouch time d1]
    else if s = 0xE0 then [.pitchWheel time (buildAndCenterPitch d1 d2)]
    else []

/-- An ALSA sequencer event as consumed by `process_alsa`, classified by its
`type` field with the data fields the dispatch reads. -/
inductive AlsaEvent where
  | noteoff (tick note velocity : Nat)
  | noteon (tick note velocity : Nat)
  | keypress (tick note velocity : Nat)
  | controller (tick param value : Nat)
  | pgmchange (tick : Nat)
  | chanpress (tick value : Nat)
  | pitchbend (tick : Nat) (value : Int)
  | sysex (tick : Nat)
  deriving DecidableEq, Repr

/-- The MIDI dispatching switch of `process_alsa`.  A `NOTEON` with velocity
zero jumps (`goto noteoff`) to the note-off case with the same fields. -/
def dispatchAlsa : AlsaEvent → List SynthCall
  | .noteoff t n v => [.noteOff t n v]
  | .noteon t n v => if v = 0 then [.noteOff t n v] else [.noteOn t n v]
  | .keypress t n v => [.polyAftertouch t n v]
  | .controller t p v => [.cc t p v]
  | .pgmchange _ => []
  | .chanpress t v => [.channelAftertouch t v]
  | .pitchbend t v => [.pitchWheel t v]
  | .sysex _ => []

/-- A timestamped JACK MIDI event (`jack_midi_event_t`): its frame time and
raw bytes. -/
structure MidiEvent where
  time : Nat
  bytes : List Nat
  deriving DecidableEq, Repr

/-- The outcome of one `process` callback: the two output channels, the
synth calls dispatched, whether `renderBlock` was called, and the return
code. -/
structure ProcessResult where
  left : List Int
  right : List Int
  calls : List SynthCall
  renderCalled : Bool
  ret : Int
  deriving DecidableEq, Repr

/-- The JACK `process` audio callback.  `lockAcquired` is the outcome of the
non-blocking `std::try_to_lock` acquisition of `processMutex`; `render`
abstracts what `synth->renderBlock` writes into the two output channels for
a given frame count.  On a failed acquisition the callback zero-fills both
output channels and returns 0 without dispatching events or rendering. -/
def process (render : Nat → List Int × List Int) (lockAcquired : Bool)
    (numFrames : Nat) (events : List MidiEvent) : ProcessResult :=
  if lockAcquired then
    { left := (render numFrames).1
      right := (render numFrames).2
      calls := (events.map (fun e => dispatchJack e.time e.bytes)).flatten
      renderCalled := true
      ret := 0 }
  else
    { left := List.replicate numFrames 0
      right := List.replicate numFrames 0
      calls := []
      renderCalled := false
      ret := 0 }

/-- The `factor` lambda in `main`: maps the `--oversampling` flag string to
the factor passed to `setOversamplingFactor`. -/
def oversamplingFactor (s : String) : Nat :=
  if s = "x1" then 1
  else if s = "x2" then 2
  else if s = "x4" then 4
  else if s = "x8" then 8
  else 1

/-- Scanning core of `stringTokenize`.  `rest` is the unread remainder of
the input; `inQuote` says whether the scan is inside the inner
quote-consuming while loop.  The C++ scan, upon reaching the end of the
string while inside that loop, reads the terminating null at index
`length()` (which is not a quote), appends it and keeps incrementing the
index past the end of the storage, which is undefined behaviour; that
situation is modelled by returning `none`. -/
def tokenizeAux (inQuote : Bool) (rest part : List Char)
    (acc : List (List Char)) : Option (List (List Char)) :=
  match inQuote, rest with
  | true, [] => none
  | true, c :: tl =>
    if c = '"' then tokenizeAux false tl [] (acc ++ [part])
    else tokenizeAux true tl (part ++ [c]) acc
  | false, [] => if part ≠ [] then some (acc ++ [part]) else some acc
  | false, c :: tl =>
    if c = ' ' ∧ part ≠ [] then tokenizeAux false tl [] (acc ++ [part])
    else if c = '"' then tokenizeAux true tl part acc
    else tokenizeAux false tl (part ++ [c]) acc

/-- `stringTokenize(str)`: splits the console command arguments on spaces,
with double-quoted substrings kept together (quotes removed).  Strings are
modelled as lists of characters; `none` models the undefined behaviour of
the scan running past the end of the string. -/
def stringTokenize (s : List Char) : Option (List (List Char)) :=
  tokenizeAux false s [] []

end jack

namespace mux

/-- Who currently holds `processMutex`. -/
inductive Owner where
  | free
  | audio
  | ctrl
  deriving DecidableEq, Repr

/-- Program counter of the audio thread: either between callbacks, or inside
the locked section of `process` (event dispatch plus `renderBlock`). -/
inductive AudioPC where
  | idle
  | rendering
  deriving DecidableEq, Repr

/-- Program counter of the control-plane thread (the JACK server invoking
`sampleRateChanged` / `sampleBlockChanged`): either outside a handler, or
inside the locked section applying `setSampleRate` / `setSamplesPerBlock`. -/
inductive CtrlPC where
  | idle
  | setting
  deriving DecidableEq, Repr

/-- A state of the two-thread interleaving model of `jack_client.cpp`: the
mutex owner and both program counters. -/
structure SysState where
  mutex : Owner
  audio : AudioPC
  ctrl : CtrlPC
  deriving DecidableEq, Repr

/-- Interleaving semantics of the locking discipline: the audio thread
attempts `processMutex` with `std::try_to_lock` (failure renders silence and
leaves it idle); the handlers take a blocking `std::lock_guard`, which can
only proceed when the mutex is free.  Both sides release on exit. -/
inductive Step : SysState → SysState → Prop where
  | audioTryAcquire (c : CtrlPC) :
      Step ⟨.free, .idle, c⟩ ⟨.audio, .rendering, c⟩
  | audioTryFail (m : Owner) (c : CtrlPC) (h : m ≠ .free) :
      Step ⟨m, .idle, c⟩ ⟨m, .idle, c⟩
  | audioFinish (c : CtrlPC) :
      Step ⟨.audio, .rendering, c⟩ ⟨.free, .idle, c⟩
  | ctrlAcquire (a : AudioPC) :
      Step ⟨.free, a, .idle⟩ ⟨.ctrl, a, .setting⟩
  | ctrlFinish (a : AudioPC) :
      Step ⟨.ctrl, a, .setting⟩ ⟨.free, a, .idle⟩

/-- States reachable from the initial state (mutex free, both threads
outside their critical sections) by any interleaving. -/
inductive Reachable : SysState → Prop where
  | init : Reachable ⟨.free, .idle, .idle⟩
  | step {s t : SysState} : Reachable s → Step s t → Reachable t

end mux

namespace flex

/-- One segment of a flex envelope.  Modelled from the spec: the
implementation of `FlexEnvelope` and the `FlexEGDescription` structure are
not among the provided sources (only the interface header `FlexEnvelope.h`
is); per the spec each segment interpolates from a start level to a target
level over a configured duration in frames. -/
structure FlexSegment where
  duration : Nat
  target : Rat
  deriving DecidableEq, Repr

/-- Modelled from the spec: a flex envelope description is an ordered list
of segments; any segment may be marked as the sustain point (holds
indefinitely until release) and any as the entry point for `release`. -/
structure FlexEGDescription where
  segments : List FlexSegment
  sustainIdx : Nat
  releaseIdx : Nat
  deriving DecidableEq, Repr

/-- Phase of the flex envelope state machine: `Idle`, a position inside
segment `seg`, or `Off`. -/
inductive EGPhase where
  | idle
  | active (seg pos : Nat)
  | off
  deriving DecidableEq, Repr

/-- Modelled from the spec: the state of a `FlexEnvelope` generator — the
bound description, the segment cursor, the current level, the start level of
the current segment's ramp, the remaining trigger delay, the pending release
countdown, and whether release has been entered. -/
structure FlexEnvelope where
  desc : FlexEGDescription
  phase : EGPhase
  level : Rat
  segStartLevel : Rat
  delay : Nat
  releasePending : Option Nat
  released : Bool
  deriving DecidableEq, Repr

/-- Level of a segment ramp `pos` frames in: linear interpolation from
`start` to the segment's target; a zero-duration segment snaps instantly to
its target. -/
def segLevel (start : Rat) (s : FlexSegment) (pos : Nat) : Rat :=
  if s.duration = 0 then s.target
  else start + (s.target - start) * (pos : Rat) / (s.duration : Rat)

/-- `configure(desc)`: binds the description without starting playback. -/
def configure (d : FlexEGDescription) (e : FlexEnvelope) : FlexEnvelope :=
  { e with desc := d, phase := .idle, releasePending := none,
           released := false }

/-- `start(triggerDelay)`: resets the cursor to segment 0, with
`triggerDelay` leading frames before the envelope begins ramping. -/
def start (triggerDelay : Nat) (e : FlexEnvelope) : FlexEnvelope :=
  { e with phase := .active 0 0, segStartLevel := e.level,
           delay := triggerDelay, releasePending := none, released := false }

/-- `release(releaseDelay)`: schedules the transition into the release
segment after `releaseDelay` frames. -/
def release (releaseDelay : Nat) (e : FlexEnvelope) : FlexEnvelope :=
  { e with releasePending := some releaseDelay }

/-- The forced transition into the release entry segment: the cursor jumps
to the release segment and the ramp's start level is the envelope's current
level, so the level is preserved across the transition. -/
def enterRelease (e : FlexEnvelope) : FlexEnvelope :=
  { e with phase := .active e.desc.releaseIdx 0
           segStartLevel := e.level
           releasePending := none
           released := true }

/-- One frame of envelope processing, ignoring any pending release: consume
a trigger-delay frame if any; otherwise advance the current segment's ramp,
hold at the sustain point until released, move to the next segment when one
completes, and fall to `Off` after the last segment. -/
def stepCore (e : FlexEnvelope) : FlexEnvelope × Rat :=
  if e.delay ≠ 0 then ({ e with delay := e.delay - 1 }, e.level)
  else
    match e.phase with
    | .idle => (e, e.level)
    | .off => (e, e.level)
    | .active seg pos =>
      match e.desc.segments.get? seg with
      | none => ({ e with phase := .off }, e.level)
      | some s =>
        let newPos := pos + 1
        if newPos < s.duration then
          let lvl := segLevel e.segStartLevel s newPos
          ({ e with phase := .active seg newPos, level := lvl }, lvl)
        else if seg = e.desc.sustainIdx ∧ ¬ e.released then
          ({ e with level := s.target }, s.target)
        else if seg + 1 < e.desc.segments.length then
          ({ e with phase := .active (seg + 1) 0, level := s.target,
                    segStartLevel := s.target }, s.target)
        else
          ({ e with phase := .off, level := s.target }, s.target)

/-- One frame of envelope processing: when the release countdown reaches
zero the envelope is forced into the release segment (from whatever state it
is in) before the frame is produced; otherwise the countdown ticks and the
frame proceeds normally. -/
def step (e : FlexEnvelope) : FlexEnvelope × Rat :=
  match e.releasePending with
  | some 0 => stepCore (enterRelease e)
  | some (n + 1) => stepCore { e with releasePending := some n }
  | none => stepCore e

/-- `process(out)` over a block of `n` frames: iterates `step`, returning
the final state and the produced level trajectory. -/
def processN : FlexEnvelope → Nat → FlexEnvelope × List Rat
  | e, 0 => (e, [])
  | e, n + 1 =>
    let p := step e
    let q := processN p.1 n
    (q.1, p.2 :: q.2)

end flex

/-! ## Helper lemmas -/

theorem bufferResize_fst (b : List Int) (ok : Bool) (n : Nat) :
    (sfz.bufferResize b ok n).1 = ok := by
  cases ok <;> simp [sfz.bufferResize]

theorem bufferResize_snd_length (b : List Int) (ok : Bool) (n : Nat) :
    (sfz.bufferResize b ok n).2.length = if ok then n else b.length := by
  cases ok
  · simp [sfz.bufferResize]
  · simp [sfz.bufferResize]; omega

theorem resize_snd_numChannels (ab : sfz.AudioBuffer) (alloc : Nat → Bool)
    (n : Nat) :
    ((ab.resize alloc n).2).getNumChannels = ab.getNumChannels := by
  simp [sfz.AudioBuffer.resize, sfz.AudioBuffer.getNumChannels]

theorem resize_snd_numFrames (ab : sfz.AudioBuffer) (alloc : Nat → Bool)
    (n : Nat) :
    ((ab.resize alloc n).2).getNumFrames = ab.getNumFrames := rfl

theorem resize_fst_iff (ab : sfz.AudioBuffer) (alloc : Nat → Bool) (n : Nat) :
    (ab.resize alloc n).1 = true ↔
      ∀ i < ab.getNumChannels, alloc i = true := by
  simp [sfz.AudioBuffer.resize, sfz.AudioBuffer.getNumChannels, List.all_map,
    List.all_eq_true, Function.comp, bufferResize_fst, List.mem_range]

theorem resize_getSpan_length (ab : sfz.AudioBuffer) (alloc : Nat → Bool)
    (n i : Nat) (hi : i < ab.getNumChannels) :
    (((ab.resize alloc n).2).getSpan i).length =
      (if alloc i then n else (ab.getSpan i).length) := by
  have hi' : i < ab.buffers.length := hi
  simp [sfz.AudioBuffer.resize, sfz.AudioBuffer.getSpan, hi',
    List.getD_eq_getElem, List.map_map, bufferResize_snd_length]

/-! ## Claim theorems -/

/-- C1, counterexample: on a two-channel, four-frame buffer, a resize to 8
frames whose allocation succeeds for channel 0 but fails for channel 1
returns `false` yet changes the buffer, leaving channel 0 at 8 frames and
channel 1 at 4 frames — inconsistent lengths, so `resize` is not atomic. -/
theorem audioBuffer_resize_not_atomic_cex :
    (((sfz.AudioBuffer.create 2 2 4).resize (fun j => j == 0) 8).1 = false) ∧
    ((sfz.AudioBuffer.create 2 2 4).resize (fun j => j == 0) 8).2 ≠
      sfz.AudioBuffer.create 2 2 4 ∧
    ((((sfz.AudioBuffer.create 2 2 4).resize (fun j => j == 0) 8).2).getSpan 0).length = 8 ∧
    ((((sfz.AudioBuffer.create 2 2 4).resize (fun j => j == 0) 8).2).getSpan 1).length = 4 := by
  decide

/-- C1 (amended): `resize(newSize)` returns `true` iff every channel's
allocation succeeds; it leaves the channel count and the `numFrames` member
unchanged; every channel whose allocation succeeded is at length `newSize`
and every channel whose allocation failed keeps its previous length.  In
particular, on success all channels are at `newSize`, but on failure the
channels may be left at inconsistent lengths: there is no rollback. -/
theorem audioBuffer_resize_amended (ab : sfz.AudioBuffer) (alloc : Nat → Bool)
    (n i : Nat) (hi : i < ab.getNumChannels) :
    ((ab.resize alloc n).1 = true ↔ ∀ j < ab.getNumChannels, alloc j = true) ∧
    ((ab.resize alloc n).2).getNumChannels = ab.getNumChannels ∧
    ((ab.resize alloc n).2).getNumFrames = ab.getNumFrames ∧
    (((ab.resize alloc n).2).getSpan i).length =
      (if alloc i then n else (ab.getSpan i).length) :=
  ⟨resize_fst_iff ab alloc n, resize_snd_numChannels ab alloc n,
   resize_snd_numFrames ab alloc n, resize_getSpan_length ab alloc n i hi⟩

/-- Witness for C1 (amended) at a concrete two-channel buffer, resized to 8
with channel 0 succeeding and channel 1 failing. -/
theorem audioBuffer_resize_amended_witness :
    let B := sfz.AudioBuffer.create 2 2 4
    ((B.resize (fun j => j == 0) 8).1 = true ↔
      ∀ j < B.getNumChannels, (j == 0) = true) ∧
    ((B.resize (fun j => j == 0) 8).2).getNumChannels = B.getNumChannels ∧
    ((B.resize (fun j => j == 0) 8).2).getNumFrames = B.getNumFrames ∧
    (((B.resize (fun j => j == 0) 8).2).getSpan 1).length =
      (if (1 : Nat) == 0 then 8 else (B.getSpan 1).length) :=
  audioBuffer_resize_amended (sfz.AudioBuffer.create 2 2 4) (fun j => j == 0)
    8 1 (by decide)

/-- C2, failing input: `resize` does not update the `numFrames` member, so
after constructing a one-channel, four-frame buffer and successfully
resizing it to 8 frames, `getSpan 0` has length 8 while `getNumFrames()`
still reports 4, contradicting both the claim and the source's own
documentation of `getNumFrames` ("the number of elements in each buffer"). -/
theorem audioBuffer_resize_stale_numFrames :
    (((sfz.AudioBuffer.create 8 1 4).resize (fun _ => true) 8).1 = true) ∧
    ((((sfz.AudioBuffer.create 8 1 4).resize (fun _ => true) 8).2).getSpan 0).length = 8 ∧
    (((sfz.AudioBuffer.create 8 1 4).resize (fun _ => true) 8).2).getNumFrames = 4 := by
  decide

/-- C5: `addChannel()` on a buffer at `MaxChannels` capacity is a no-op
(channel count, frame count and all channel contents unchanged); below
capacity it adds exactly one channel of length `numFrames`, leaving all
existing channels and the frame count unchanged. -/
theorem audioBuffer_addChannel_correct (ab : sfz.AudioBuffer) :
    (ab.getNumChannels = ab.maxChannels → ab.addChannel = ab) ∧
    (ab.getNumChannels < ab.maxChannels →
      ab.addChannel.getNumChannels = ab.getNumChannels + 1 ∧
      ab.addChannel.getNumFrames = ab.getNumFrames ∧
      ab.addChannel.getSpan ab.getNumChannels =
        List.replicate ab.getNumFrames 0 ∧
      ∀ c < ab.getNumChannels, ab.addChannel.getSpan c = ab.getSpan c) := by
  constructor
  · intro h
    simp only [sfz.AudioBuffer.getNumChannels] at h
    simp [sfz.AudioBuffer.addChannel, h]
  · intro h
    simp only [sfz.AudioBuffer.getNumChannels] at h
    have hAdd : ab.addChannel =
        { ab with buffers := ab.buffers ++ [List.replicate ab.numFrames 0] } := by
      simp [sfz.AudioBuffer.addChannel, h]
    refine ⟨?_, ?_, ?_, ?_⟩
    · rw [hAdd]; simp [sfz.AudioBuffer.getNumChannels]
    · rw [hAdd]; rfl
    · rw [hAdd]
      simp only [sfz.AudioBuffer.getSpan, sfz.AudioBuffer.getNumChannels,
        sfz.AudioBuffer.getNumFrames]
      rw [if_pos (by simp), List.getD_eq_getElem _ _ (by simp),
        List.getElem_concat_length _ _ _ rfl]
    · intro c hc
      simp only [sfz.AudioBuffer.getNumChannels] at hc
      rw [hAdd]
      simp only [sfz.AudioBuffer.getSpan]
      have hc1 : c < (ab.buffers ++ [List.replicate ab.numFrames 0]).length := by
        simp; omega
      rw [if_pos hc1, if_pos hc, List.getD_eq_getElem _ _ hc1,
        List.getD_eq_getElem _ _ hc, List.getElem_append_left hc]

/-- Witness for C5: a below-capacity buffer gains exactly one channel and an
at-capacity buffer is unchanged. -/
theorem audioBuffer_addChannel_witness :
    let B := sfz.AudioBuffer.create 2 1 3
    let C := sfz.AudioBuffer.create 2 2 3
    (B.addChannel.getNumChannels = B.getNumChannels + 1 ∧
      B.addChannel.getNumFrames = B.getNumFrames ∧
      B.addChannel.getSpan B.getNumChannels = List.replicate B.getNumFrames 0 ∧
      ∀ c < B.getNumChannels, B.addChannel.getSpan c = B.getSpan c) ∧
    C.addChannel = C :=
  ⟨(audioBuffer_addChannel_correct (sfz.AudioBuffer.create 2 1 3)).2 (by decide),
   (audioBuffer_addChannel_correct (sfz.AudioBuffer.create 2 2 3)).1 (by decide)⟩

/-- C9: for every channel index at or above `getNumChannels()`, `getSpan`
returns the empty span and `channelWriter` returns the null iterator, in
release builds as well (the in-range check is ordinary code, not only the
debug `ASSERT`), and no channel storage is read. -/
theorem audioBuffer_out_of_range_access (ab : sfz.AudioBuffer) (c : Nat)
    (hc : ab.getNumChannels ≤ c) :
    ab.getSpan c = [] ∧ ab.channelWriter c = none := by
  simp only [sfz.AudioBuffer.getNumChannels] at hc
  constructor
  · simp [sfz.AudioBuffer.getSpan]; omega
  · simp [sfz.AudioBuffer.channelWriter]; omega

/-- Witness for C9 at a two-channel buffer accessed at channel 5. -/
theorem audioBuffer_out_of_range_access_witness :
    (sfz.AudioBuffer.create 2 2 4).getSpan 5 = [] ∧
    (sfz.AudioBuffer.create 2 2 4).channelWriter 5 = none :=
  audioBuffer_out_of_range_access (sfz.AudioBuffer.create 2 2 4) 5 (by decide)


/-- C3: when the try-acquire of the process mutex fails, the JACK `process`
callback writes exactly `numFrames` zero samples to each of the two output
channels, dispatches no MIDI events, does not call `renderBlock`, and
returns 0.  The acquisition is `std::try_to_lock`, which is non-blocking by
construction; its outcome is the `lockAcquired` input of the model. -/
theorem jack_process_lock_failure (render : Nat → List Int × List Int)
    (numFrames : Nat) (events : List jack.MidiEvent) :
    (jack.process render false numFrames events).left =
        List.replicate numFrames 0 ∧
    (jack.process render false numFrames events).right =
        List.replicate numFrames 0 ∧
    (jack.process render false numFrames events).calls = [] ∧
    (jack.process render false numFrames events).renderCalled = false ∧
    (jack.process render false numFrames events).ret = 0 :=
  ⟨rfl, rfl, rfl, rfl, rfl⟩

/-- C4: the oversampling option string maps to factor 2 for `x2`, 4 for
`x4`, 8 for `x8`, and to the safe fallback 1 for every other string
(including `x1`, the default `1x`, and any unsupported value). -/
theorem jack_oversampling_fallback (s : String) :
    (s = "x2" → jack.oversamplingFactor s = 2) ∧
    (s = "x4" → jack.oversamplingFactor s = 4) ∧
    (s = "x8" → jack.oversamplingFactor s = 8) ∧
    (s ≠ "x2" → s ≠ "x4" → s ≠ "x8" → jack.oversamplingFactor s = 1) := by
  refine ⟨?_, ?_, ?_, ?_⟩
  · rintro rfl; decide
  · rintro rfl; decide
  · rintro rfl; decide
  · intro h2 h4 h8
    simp [jack.oversamplingFactor, h2, h4, h8]

/-- Witness for C4 at a supported value and at the default `1x`. -/
theorem jack_oversampling_fallback_witness :
    jack.oversamplingFactor "x4" = 4 ∧ jack.oversamplingFactor "1x" = 1 :=
  ⟨(jack_oversampling_fallback "x4").2.1 rfl,
   (jack_oversampling_fallback "1x").2.2.2 (by decide) (by decide) (by decide)⟩

/-- C8: in both the JACK and the ALSA dispatch paths, a note-on event with
velocity byte 0 is dispatched to the synth as `noteOff` with the same
timestamp and note number (and never as `noteOn`). -/
theorem midi_noteon_velocity_zero_is_noteoff (t note b0 tick n : Nat)
    (h : jack.midiStatus b0 = 0x90) :
    jack.dispatchJack t [b0, note, 0] = [jack.SynthCall.noteOff t note 0] ∧
    jack.dispatchAlsa (jack.AlsaEvent.noteon tick n 0) =
      [jack.SynthCall.noteOff tick n 0] := by
  constructor
  · simp [jack.dispatchJack, h]
  · simp [jack.dispatchAlsa]

/-- Witness for C8 at status byte `0x90`. -/
theorem midi_noteon_velocity_zero_is_noteoff_witness :
    jack.dispatchJack 3 [0x90, 60, 0] = [jack.SynthCall.noteOff 3 60 0] ∧
    jack.dispatchAlsa (jack.AlsaEvent.noteon 7 20 0) =
      [jack.SynthCall.noteOff 7 20 0] :=
  midi_noteon_velocity_zero_is_noteoff 3 60 0x90 7 20 (by decide)

/-- Mutual-exclusion invariant of the locking discipline: a thread inside
its critical section owns the mutex. -/
theorem mux_reachable_inv (s : mux.SysState) (h : mux.Reachable s) :
    (s.audio = mux.AudioPC.rendering → s.mutex = mux.Owner.audio) ∧
    (s.ctrl = mux.CtrlPC.setting → s.mutex = mux.Owner.ctrl) := by
  induction h with
  | init => simp
  | step hr hst ih => cases hst <;> simp_all

/-- C6: in every interleaving of the control-plane thread (the sample-rate
and buffer-size change handlers, which take a blocking `lock_guard` on
`processMutex`) and the audio thread (whose `process` callback holds the
same mutex for the whole block), no reachable state has a parameter change
being applied while a render block is in progress: `setSampleRate` and
`setSamplesPerBlock` take effect only between render cycles. -/
theorem mux_no_param_change_mid_block (s : mux.SysState)
    (h : mux.Reachable s) :
    ¬ (s.audio = mux.AudioPC.rendering ∧ s.ctrl = mux.CtrlPC.setting) := by
  rintro ⟨ha, hc⟩
  have hinv := mux_reachable_inv s h
  have h1 := hinv.1 ha
  have h2 := hinv.2 hc
  rw [h1] at h2
  exact absurd h2 (by decide)

/-- Witness for C6 at the initial state. -/
theorem mux_no_param_change_mid_block_witness :
    ¬ ((⟨mux.Owner.free, mux.AudioPC.idle, mux.CtrlPC.idle⟩ :
          mux.SysState).audio = mux.AudioPC.rendering ∧
       (⟨mux.Owner.free, mux.AudioPC.idle, mux.CtrlPC.idle⟩ :
          mux.SysState).ctrl = mux.CtrlPC.setting) :=
  mux_no_param_change_mid_block _ mux.Reachable.init

/-- The scanning core stays in bounds whenever the number of unread double
quotes matches the scan mode's parity: odd inside a quoted section, even
outside. -/
theorem tokenizeAux_isSome_of_parity (rest : List Char) :
    ∀ (inQuote : Bool) (part : List Char) (acc : List (List Char)),
      rest.count '"' % 2 = (if inQuote then 1 else 0) →
      (jack.tokenizeAux inQuote rest part acc).isSome := by
  induction rest with
  | nil =>
    intro q part acc h
    cases q
    · simp only [jack.tokenizeAux]
      split <;> simp
    · simp at h
  | cons c tl ih =>
    intro q part acc h
    cases q
    · simp only [jack.tokenizeAux]
      by_cases h1 : c = ' ' ∧ part ≠ []
      · rw [if_pos h1]
        apply ih
        have hcq : ¬ (c = '"') := by rw [h1.1]; decide
        simpa [List.count_cons, hcq] using h
      · rw [if_neg h1]
        by_cases h2 : c = '"'
        · rw [if_pos h2]
          apply ih
          simp [List.count_cons, h2] at h ⊢
          omega
        · rw [if_neg h2]
          apply ih
          simpa [List.count_cons, h2] using h
    · simp only [jack.tokenizeAux]
      by_cases h2 : c = '"'
      · rw [if_pos h2]
        apply ih
        simp [List.count_cons, h2] at h ⊢
        omega
      · rw [if_neg h2]
        apply ih
        simpa [List.count_cons, h2] using h

/-- C10, counterexample: on the input consisting of one double quote, the
quote-consuming scan of `stringTokenize` runs past the end of the string
(reading the terminating null at `str[length()]` and then indexing past the
storage — undefined behaviour, `none` in the model); and on `a  b` (two
spaces) the returned second token is `" b"`, which is not a space-delimited
token, so the result is not the sequence of space-delimited tokens. -/
theorem stringTokenize_cex :
    jack.stringTokenize ['"'] = none ∧
    jack.stringTokenize ['a', ' ', ' ', 'b'] = some [['a'], [' ', 'b']] := by
  decide

/-- C10 (amended): for every input string containing an even number of
double-quote characters, `stringTokenize` terminates while reading only
character positions within the string's bounds, and returns the accumulated
token list (quoted substrings become single tokens with the quotes
removed). -/
theorem stringTokenize_inbounds (s : List Char)
    (h : s.count '"' % 2 = 0) :
    (jack.stringTokenize s).isSome :=
  tokenizeAux_isSome_of_parity s false [] [] (by simpa using h)

/-- Witness for C10 (amended) on `a "b c" d`. -/
theorem stringTokenize_inbounds_witness :
    (jack.stringTokenize
      ['a', ' ', '"', 'b', ' ', 'c', '"', ' ', 'd']).isSome :=
  stringTokenize_inbounds ['a', ' ', '"', 'b', ' ', 'c', '"', ' ', 'd']
    (by decide)

/-- `stepCore` never changes the pending release countdown. -/
theorem flex_stepCore_releasePending (e : flex.FlexEnvelope) :
    (flex.stepCore e).1.releasePending = e.releasePending := by
  unfold flex.stepCore
  dsimp only
  repeat' split
  all_goals rfl

/-- `stepCore` never changes the bound description. -/
theorem flex_stepCore_desc (e : flex.FlexEnvelope) :
    (flex.stepCore e).1.desc = e.desc := by
  unfold flex.stepCore
  dsimp only
  repeat' split
  all_goals rfl

/-- Once the trigger delay is over it stays over. -/
theorem flex_stepCore_delay (e : flex.FlexEnvelope) (h : e.delay = 0) :
    (flex.stepCore e).1.delay = 0 := by
  unfold flex.stepCore
  rw [if_neg (by omega)]
  dsimp only
  repeat' split
  all_goals exact h

/-- A frame with a positive release countdown ticks the countdown down by
one. -/
theorem flex_step_releasePending_tick (e : flex.FlexEnvelope) (n : Nat)
    (h : e.releasePending = some (n + 1)) :
    (flex.step e).1.releasePending = some n := by
  unfold flex.step
  rw [h]
  exact flex_stepCore_releasePending _

/-- `step` never changes the bound description. -/
theorem flex_step_desc (e : flex.FlexEnvelope) :
    (flex.step e).1.desc = e.desc := by
  unfold flex.step
  cases hrp : e.releasePending with
  | none => exact flex_stepCore_desc e
  | some k =>
    cases k with
    | zero => exact flex_stepCore_desc _
    | succ m => exact flex_stepCore_desc _

/-- `step` keeps the trigger delay at zero. -/
theorem flex_step_delay (e : flex.FlexEnvelope) (h : e.delay = 0) :
    (flex.step e).1.delay = 0 := by
  unfold flex.step
  cases hrp : e.releasePending with
  | none => exact flex_stepCore_delay e h
  | some k =>
    cases k with
    | zero => exact flex_stepCore_delay _ h
    | succ m => exact flex_stepCore_delay _ h

/-- Processing `n ≤ m` frames after `release(m)` leaves the countdown at
`m - n`: the transition into the release segment happens neither earlier nor
later than scheduled. -/
theorem flex_processN_countdown (n : Nat) :
    ∀ (e : flex.FlexEnvelope) (m : Nat), e.releasePending = some m → n ≤ m →
      (flex.processN e n).1.releasePending = some (m - n) := by
  induction n with
  | zero => intro e m h _; simpa [flex.processN] using h
  | succ k ih =>
    intro e m h hle
    cases m with
    | zero => omega
    | succ m0 =>
      have hstep := flex_step_releasePending_tick e m0 h
      have hk := ih (flex.step e).1 m0 hstep (by omega)
      simp only [flex.processN]
      simpa [Nat.succ_sub_succ] using hk

/-- Processing frames never changes the bound description. -/
theorem flex_processN_desc (n : Nat) :
    ∀ e : flex.FlexEnvelope, (flex.processN e n).1.desc = e.desc := by
  induction n with
  | zero => intro e; rfl
  | succ k ih =>
    intro e
    simp only [flex.processN]
    rw [ih (flex.step e).1, flex_step_desc]

/-- Processing frames keeps the trigger delay at zero. -/
theorem flex_processN_delay (n : Nat) :
    ∀ e : flex.FlexEnvelope, e.delay = 0 →
      (flex.processN e n).1.delay = 0 := by
  induction n with
  | zero => intro e h; simpa [flex.processN] using h
  | succ k ih =>
    intro e h
    simp only [flex.processN]
    exact ih _ (flex_step_delay e h)

/-- The first frame produced after the transition into the release segment
moves from the preserved current level by exactly one step of the release
ramp's natural slope. -/
theorem flex_stepCore_release_frame (e : flex.FlexEnvelope)
    (s : flex.FlexSegment)
    (hph : e.phase = flex.EGPhase.active e.desc.releaseIdx 0)
    (hrel : e.released = true)
    (hdel : e.delay = 0)
    (hseg : e.desc.segments.get? e.desc.releaseIdx = some s)
    (hdur : 1 ≤ s.duration) :
    (flex.stepCore e).2 =
      e.segStartLevel + (s.target - e.segStartLevel) / (s.duration : Rat) := by
  unfold flex.stepCore
  rw [if_neg (by omega)]
  rw [hph]
  dsimp only
  rw [hseg]
  dsimp only
  by_cases hd : 0 + 1 < s.duration
  · rw [if_pos hd]
    dsimp only
    unfold flex.segLevel
    rw [if_neg (by omega)]
    push_cast
    ring
  · have hd1 : s.duration = 1 := by omega
    rw [if_neg hd, if_neg (by simp [hrel])]
    split
    · dsimp only
      rw [hd1]
      norm_num
    · dsimp only
      rw [hd1]
      norm_num

/-- C7: for every envelope state with its trigger delay elapsed whose
release entry segment exists and has duration at least one frame, calling
`release(d)` forces the transition into the release segment exactly `d`
frames later: after `d` processed frames the countdown has just expired, the
next frame is processed from the forced release state, whose cursor is at
position 0 of the release entry segment and whose ramp start level — and
current level — equal the envelope's level at that moment (so the transition
itself introduces no discontinuity), and that frame's output moves from that
level by exactly one step of the release ramp's natural slope,
`(target - level) / duration`. -/
theorem flexEnvelope_release_correct (e : flex.FlexEnvelope) (d : Nat)
    (s : flex.FlexSegment)
    (hseg : e.desc.segments.get? e.desc.releaseIdx = some s)
    (hdur : 1 ≤ s.duration) (hdelay : e.delay = 0) :
    (flex.processN (flex.release d e) d).1.releasePending = some 0 ∧
    flex.step (flex.processN (flex.release d e) d).1 =
      flex.stepCore (flex.enterRelease (flex.processN (flex.release d e) d).1) ∧
    (flex.enterRelease (flex.processN (flex.release d e) d).1).phase =
      flex.EGPhase.active e.desc.releaseIdx 0 ∧
    (flex.enterRelease (flex.processN (flex.release d e) d).1).level =
      (flex.processN (flex.release d e) d).1.level ∧
    (flex.enterRelease (flex.processN (flex.release d e) d).1).segStartLevel =
      (flex.processN (flex.release d e) d).1.level ∧
    (flex.step (flex.processN (flex.release d e) d).1).2 =
      (flex.processN (flex.release d e) d).1.level +
        (s.target - (flex.processN (flex.release d e) d).1.level) /
          (s.duration : Rat) := by
  have hdesc : (flex.processN (flex.release d e) d).1.desc = e.desc :=
    flex_processN_desc d (flex.release d e)
  have hdel : (flex.processN (flex.release d e) d).1.delay = 0 :=
    flex_processN_delay d (flex.release d e) hdelay
  have hpend : (flex.processN (flex.release d e) d).1.releasePending = some 0 := by
    have hcd := flex_processN_countdown d (flex.release d e) d rfl (Nat.le_refl d)
    simpa using hcd
  have hstep : flex.step (flex.processN (flex.release d e) d).1 =
      flex.stepCore (flex.enterRelease (flex.processN (flex.release d e) d).1) := by
    unfold flex.step
    rw [hpend]
  have hseg2 : (flex.enterRelease
        (flex.processN (flex.release d e) d).1).desc.segments.get?
      (flex.enterRelease
        (flex.processN (flex.release d e) d).1).desc.releaseIdx = some s := by
    show (flex.processN (flex.release d e) d).1.desc.segments.get?
      (flex.processN (flex.release d e) d).1.desc.releaseIdx = some s
    rw [hdesc]
    exact hseg
  refine ⟨hpend, hstep, ?_, rfl, rfl, ?_⟩
  · show flex.EGPhase.active (flex.processN (flex.release d e) d).1.desc.releaseIdx 0 =
      flex.EGPhase.active e.desc.releaseIdx 0
    rw [hdesc]
  · rw [hstep]
    exact flex_stepCore_release_frame
      (flex.enterRelease (flex.processN (flex.release d e) d).1) s
      rfl rfl hdel hseg2 hdur

/-- Witness for C7: a two-segment envelope (attack to 1 over 4 frames,
release to 0 over 4 frames), released with a 2-frame delay. -/
theorem flexEnvelope_release_correct_witness :
    let desc : flex.FlexEGDescription :=
      { segments := [⟨4, 1⟩, ⟨4, 0⟩], sustainIdx := 0, releaseIdx := 1 }
    let e : flex.FlexEnvelope :=
      { desc := desc, phase := flex.EGPhase.active 0 0, level := 0,
        segStartLevel := 0, delay := 0, releasePending := none,
        released := false }
    (flex.processN (flex.release 2 e) 2).1.releasePending = some 0 ∧
    flex.step (flex.processN (flex.release 2 e) 2).1 =
      flex.stepCore (flex.enterRelease (flex.processN (flex.release 2 e) 2).1) ∧
    (flex.enterRelease (flex.processN (flex.release 2 e) 2).1).phase =
      flex.EGPhase.active 1 0 ∧
    (flex.enterRelease (flex.processN (flex.release 2 e) 2).1).level =
      (flex.processN (flex.release 2 e) 2).1.level ∧
    (flex.enterRelease (flex.processN (flex.release 2 e) 2).1).segStartLevel =
      (flex.processN (flex.release 2 e) 2).1.level ∧
    (flex.step (flex.processN (flex.release 2 e) 2).1).2 =
      (flex.processN (flex.release 2 e) 2).1.level +
        ((0 : Rat) - (flex.processN (flex.release 2 e) 2).1.level) /
          ((4 : Nat) : Rat) :=
  flexEnvelope_release_correct
    { desc := { segments := [⟨4, 1⟩, ⟨4, 0⟩], sustainIdx := 0, releaseIdx := 1 },
      phase := flex.EGPhase.active 0 0, level := 0, segStartLevel := 0,
      delay := 0, releasePending := none, released := false }
    2 ⟨4, 0⟩ rfl (by decide) rfl
